import Mathlib

/-!
Verification of `stremio-readdon.py`: a shallow embedding of its data
model and per-account workflow, with theorems checking the spec's claims.

Python strings are modelled as `String` / `List Char`; the string
operations the script uses (`in` substring test, `.lower()`, `.endswith`,
`.replace`, `.strip()`) are given executable structural definitions.
Network and console I/O are modelled by oracles (`Api`, `InitEnv`), and
every observable action (HTTP request, log line, file write) is recorded
as an `Event` so that ordering and occurrence claims can be stated.
-/

deriving instance DecidableEq for Except

namespace StremioReaddon

/-! ## Python string primitives -/

/-- Python `s.lower()` on one character (ASCII case mapping, which is all
the script's addon ids use). -/
def pyLowerChar (c : Char) : Char :=
  if c.toNat ≥ 65 && c.toNat ≤ 90 then Char.ofNat (c.toNat + 32) else c

/-- Python `s.lower()`. -/
def pyLower (s : List Char) : List Char := s.map pyLowerChar

/-- Does `s` start with `pat`? (prefix test used by the substring scan). -/
def pyStartsWith : List Char → List Char → Bool
  | [], _ => true
  | _ :: _, [] => false
  | p :: ps, c :: cs => p == c && pyStartsWith ps cs

/-- Python `pat in s`: substring containment. -/
def pyContains (pat : List Char) : List Char → Bool
  | [] => pat.isEmpty
  | c :: rest => pyStartsWith pat (c :: rest) || pyContains pat rest

/-- Python `s.endswith(suffix)`. -/
def pyEndsWith (suffix s : List Char) : Bool :=
  pyStartsWith suffix.reverse s.reverse

/-- Worker for Python `s.replace(pat, rep)`: scans left to right; `skip`
counts characters of an already-matched occurrence still to consume. -/
def pyReplaceAux (pat rep : List Char) : Nat → List Char → List Char
  | _, [] => []
  | k + 1, _ :: rest => pyReplaceAux pat rep k rest
  | 0, c :: rest =>
    if pyStartsWith pat (c :: rest) && !pat.isEmpty then
      rep ++ pyReplaceAux pat rep (pat.length - 1) rest
    else
      c :: pyReplaceAux pat rep 0 rest

/-- Python `s.replace(pat, rep)`: replaces every non-overlapping
occurrence, scanning left to right.  (The script only calls this with the
non-empty pattern `/configure`.) -/
def pyReplace (pat rep s : List Char) : List Char := pyReplaceAux pat rep 0 s

/-- Python whitespace test for `.strip()`. -/
def pySpace (c : Char) : Bool :=
  c == ' ' || c == '\t' || c == '\n' || c == '\r' || c == '\x0b' || c == '\x0c'

/-- Python `s.strip()`: removes leading and trailing whitespace. -/
def pyStrip (s : List Char) : List Char :=
  ((s.dropWhile pySpace).reverse.dropWhile pySpace).reverse

/-! ## Data model (source lines 7-22) -/

/-- Constant `DEFAULT_ADDONS`: addon ids that are safe to keep (source models this
as a Python `set` of four literals; membership is all that is used). -/
def DEFAULT_ADDONS : List String :=
  ["com.linvo.cinemeta", "org.stremio.opensubtitlesv3",
   "org.stremio.opensubtitles", "org.stremio.local"]

/-- Constant `CUSTOM_ADDONS_FILE = 'custom_addons.json'`. -/
def CUSTOM_ADDONS_FILE : String := "custom_addons.json"

/-- Constant `LOGIN_CSV_FILE = 'stremio_logins.csv'`. -/
def LOGIN_CSV_FILE : String := "stremio_logins.csv"

/-- The `flags` object of a manifest (`official` / `protected` booleans). -/
structure Flags where
  official : Bool
  «protected» : Bool
  deriving Repr, DecidableEq

/-- An addon manifest document.  Fields that a raw JSON document may lack
are `Option`s: `none` models a missing key, so that subscripting raises. -/
structure Manifest where
  id : Option String
  name : Option String
  flags : Option Flags
  deriving Repr, DecidableEq

/-- An addon descriptor as it appears in a collection or in the cache. -/
structure Addon where
  manifest : Option Manifest
  transportUrl : String
  flags : Option Flags
  deriving Repr, DecidableEq

/-- Subscripting `addon['manifest']['id']`: raises `KeyError` when either key is absent. -/
def manifestId (a : Addon) : Except String String :=
  match a.manifest with
  | none => .error "KeyError: manifest"
  | some m =>
    match m.id with
    | none => .error "KeyError: id"
    | some i => .ok i

/-- Test `"trakt" in addon['manifest']['id'].lower()`. -/
def hasTrakt (id : String) : Bool :=
  pyContains "trakt".data (pyLower id.data)

/-- The keep-predicate of `process_account` (source lines 152-153):
`addon['manifest']['id'] in DEFAULT_ADDONS or "trakt" in addon['manifest']['id'].lower()`. -/
def keepId (id : String) : Bool :=
  DEFAULT_ADDONS.contains id || hasTrakt id

/-- The id of a well-formed addon (total read used to state filters). -/
def idOf (a : Addon) : String := (manifestId a).toOption.getD ""

/-- A collection is well-formed when every descriptor has `manifest.id`. -/
def WellFormed (c : List Addon) : Prop := ∀ a ∈ c, (manifestId a).isOk

/-- The list comprehension of `process_account` line 152: keeps default or
trakt-keyword addons; raises (`.error`) at the first descriptor lacking
`manifest` or `manifest.id`. -/
def filterKeep : List Addon → Except String (List Addon)
  | [] => .ok []
  | a :: rest => do
    let i ← manifestId a
    let tail ← filterKeep rest
    pure (if keepId i then a :: tail else tail)

/-- The list comprehension of `clone_addons` lines 112-115: keeps addons
whose id is neither in `DEFAULT_ADDONS` nor contains `trakt`. -/
def filterClone : List Addon → Except String (List Addon)
  | [] => .ok []
  | a :: rest => do
    let i ← manifestId a
    let tail ← filterClone rest
    pure (if !DEFAULT_ADDONS.contains i && !hasTrakt i then a :: tail else tail)

/-- The pure collection transformation of `process_account` lines 151-154:
keep default/trakt addons, then append the custom-addon cache. -/
def processColl (c cache : List Addon) : Except String (List Addon) :=
  (filterKeep c).map (· ++ cache)

/-! ## Observable events and oracles -/

/-- One observable action of the script: an HTTP request, a log line
(`log_action` appends `[tag] msg` to `stremio_log.txt` and prints it), or
a `json.dump` of an addon list to a file. -/
inductive Event where
  | loginCall (email password : String)
  | getAddonsCall (authKey : String)
  | setAddonsCall (authKey : String) (addons : List Addon)
  | logLine (tag msg : String)
  | fileWrite (path : String) (addons : List Addon)
  deriving Repr, DecidableEq

/-- Does an event write the given file?  (`logLine` appends to the log
file `stremio_log.txt` only; `fileWrite` is a `json.dump`.) -/
def writesFile (path : String) : Event → Bool
  | .fileWrite p _ => p == path
  | _ => false

def isLoginCall : Event → Bool
  | .loginCall _ _ => true
  | _ => false

def isGetCall : Event → Bool
  | .getAddonsCall _ => true
  | _ => false

def isSetCall : Event → Bool
  | .setAddonsCall _ _ => true
  | _ => false

/-- Oracle for the three remote endpoints: what each request would return
(`.error` models a raised exception: network failure, non-2xx status from
`raise_for_status`, or a missing key in the response body). -/
structure Api where
  loginResult : String → String → Except String String
  getAddonsResult : String → Except String (List Addon)
  setResult : String → List Addon → Except String Unit

/-! ## Workflow (source lines 85-171) -/

/-- One row of `stremio_logins.csv` (`login_data[email]`). -/
structure CredRow where
  password : String
  auth_token : String
  deriving Repr, DecidableEq

/-- Result of `process_account`: the events it emitted, in order, and the
value left in `login_data[email]['auth_token']`. -/
structure ProcResult where
  events : List Event
  authToken : String
  deriving Repr, DecidableEq

/-- The token/collection acquisition phase of `process_account` (source
lines 132-149): with a stored token, fetch optimistically and fall back to
a single fresh login plus one retried fetch via the inner bare `except:`;
with no stored token (`if auth_key:` is falsy on the empty string), log
in first.  Returns the events emitted, the value now held in
`login_data[email]['auth_token']`, and the fetched collection or the
uncaught error. -/
def acquireAddons (email password auth_key : String) (api : Api) :
    List Event × String × Except String (List Addon) :=
  if auth_key = "" then
    let evs := [Event.logLine email "No stored token. Logging in..."]
    match api.loginResult email password with
    | .error e => (evs ++ [.loginCall email password], auth_key, .error e)
    | .ok newKey =>
      match api.getAddonsResult newKey with
      | .error e =>
        (evs ++ [.loginCall email password, .getAddonsCall newKey], newKey, .error e)
      | .ok addons =>
        (evs ++ [.loginCall email password, .getAddonsCall newKey,
                 .logLine email "Logged in and stored new auth token."],
         newKey, .ok addons)
  else
    match api.getAddonsResult auth_key with
    | .ok addons =>
      ([.getAddonsCall auth_key,
        .logLine email "Authenticated with stored auth token."],
       auth_key, .ok addons)
    | .error _ =>
      let evs := [Event.getAddonsCall auth_key,
                  Event.logLine email "Stored auth token failed. Re-authenticating..."]
      match api.loginResult email password with
      | .error e => (evs ++ [.loginCall email password], auth_key, .error e)
      | .ok newKey =>
        match api.getAddonsResult newKey with
        | .error e =>
          (evs ++ [.loginCall email password, .getAddonsCall newKey], newKey, .error e)
        | .ok addons =>
          (evs ++ [.loginCall email password, .getAddonsCall newKey,
                   .logLine email "Re-authenticated and updated auth token."],
           newKey, .ok addons)

/-- The `try`-block body of `process_account` (source lines 132-156):
acquire the collection, filter it, append the custom cache, and call
`update_addons`.  Returns the events emitted, the final in-memory token,
and `.error e` when an uncaught exception leaves the block. -/
def process_account_body (email password auth_key : String) (api : Api)
    (custom_addons : List Addon) : List Event × String × Except String (List Addon) :=
  match acquireAddons email password auth_key api with
  | (evs1, tok, .error e) => (evs1, tok, .error e)
  | (evs1, tok, .ok addons) =>
    match filterKeep addons with
    | .error e => (evs1, tok, .error e)
    | .ok kept =>
      let updated := kept ++ custom_addons
      let evs2 := evs1 ++ [Event.logLine email "Processed addons successfully."]
      match api.setResult tok updated with
      | .ok _ =>
        (evs2 ++ [.setAddonsCall tok updated,
                  .logLine "UPDATE" "Addons updated successfully."],
         tok, .ok updated)
      | .error e => (evs2 ++ [.setAddonsCall tok updated], tok, .error e)

/-- Function `process_account` (source lines 129-159): the body wrapped in the
outer `except Exception`, which logs `Error: ...` for the account and
returns normally, so no per-account failure propagates to the batch. -/
def process_account (email password auth_key : String) (api : Api)
    (custom_addons : List Addon) : ProcResult :=
  match process_account_body email password auth_key api custom_addons with
  | (evs, tok, .ok _) => ⟨evs, tok⟩
  | (evs, tok, .error e) => ⟨evs ++ [.logLine email ("Error: " ++ e)], tok⟩

/-- The batch step of `main` (source lines 199-203): one `process_account`
task per credential row, `asyncio.gather`ed.  The tasks write disjoint
`login_data` keys and share no other mutable state, so the fan-out is
modelled by running them in row order; returns all events and the final
in-memory `login_data`. -/
def runBatch (api : Api) (custom_addons : List Addon) :
    List (String × CredRow) → List Event × List (String × CredRow)
  | [] => ([], [])
  | (email, row) :: rest =>
    let r := process_account email row.password row.auth_token api custom_addons
    let (evs, rows) := runBatch api custom_addons rest
    (r.events ++ evs, (email, { row with auth_token := r.authToken }) :: rows)

/-! ## Clone workflow and cache loader (source lines 32-82, 103-126) -/

/-- Reads `addon['manifest']['name']` over a list (used by `clone_addons` for its
log line); raises at the first descriptor lacking the keys. -/
def cloneNames : List Addon → Except String (List String)
  | [] => .ok []
  | a :: rest =>
    match a.manifest with
    | none => .error "KeyError: manifest"
    | some m =>
      match m.name with
      | none => .error "KeyError: name"
      | some n => do
        let tail ← cloneNames rest
        pure (n :: tail)

/-- Python `', '.join(names)`. -/
def joinComma : List String → String
  | [] => ""
  | [s] => s
  | s :: rest => s ++ ", " ++ joinComma rest

/-- Function `clone_addons` (source lines 103-126): authenticate, fetch, filter out
default/trakt addons, dump the remainder to `custom_addons.json`, log.
Any raised error is caught and printed; returns the cache written, if
any. -/
def clone_addons (email password : String) (api : Api) :
    List Event × Option (List Addon) :=
  match api.loginResult email password with
  | .error _ => ([.loginCall email password], none)
  | .ok key =>
    match api.getAddonsResult key with
    | .error _ => ([.loginCall email password, .getAddonsCall key], none)
    | .ok addons =>
      match filterClone addons with
      | .error _ => ([.loginCall email password, .getAddonsCall key], none)
      | .ok custom =>
        match cloneNames custom with
        | .error _ =>
          ([.loginCall email password, .getAddonsCall key,
            .fileWrite CUSTOM_ADDONS_FILE custom], some custom)
        | .ok names =>
          ([.loginCall email password, .getAddonsCall key,
            .fileWrite CUSTOM_ADDONS_FILE custom,
            .logLine email ("Cloned addons: " ++ joinComma names ++ ".")],
           some custom)

/-- Oracle for the interactive cache bootstrap: what `session.get(url)`
followed by `.json()` would yield for each URL. -/
structure InitEnv where
  fetchResult : String → Except String Manifest

/-- Function `fetch_manifest` (source lines 32-42): returns the parsed manifest on
success and `none` on any raised error; both outcomes are logged under the
`INIT` tag, the failure as an informational log line, never an exception. -/
def fetch_manifest (url : String) (env : InitEnv) : Option Manifest × List Event :=
  match env.fetchResult url with
  | .ok m => (some m, [.logLine "INIT" ("Fetched manifest from " ++ url ++ ".")])
  | .error e =>
    (none, [.logLine "INIT" ("Failed to fetch manifest from " ++ url ++ ". Error: " ++ e)])

/-- The URL normalization of `load_custom_addons` (source lines 61-63):
`if url.endswith('/configure'): url = url.replace('/configure', '/manifest.json')`. -/
def normalizeUrl (url : String) : String :=
  if pyEndsWith "/configure".data url.data then
    ⟨pyReplace "/configure".data "/manifest.json".data url.data⟩
  else url

/-- The interactive loop of `load_custom_addons` (source lines 55-77) run
on a scripted list of `input()` lines (an empty list models end of the
scripted input).  Each non-sentinel line is stripped, normalized, fetched;
a successful fetch appends a descriptor, a failure re-prompts. -/
def load_custom_addons_loop (env : InitEnv) :
    List String → List Addon → List Addon × List Event
  | [], acc => (acc, [])
  | line :: rest, acc =>
    let url : String := ⟨pyStrip line.data⟩
    if pyLower url.data == "done".data then
      (acc, [])
    else
      let url' := normalizeUrl url
      let (manifest, evs) := fetch_manifest url' env
      match manifest with
      | some m =>
        let addon : Addon :=
          { manifest := some m, transportUrl := url',
            flags := some (m.flags.getD ⟨false, false⟩) }
        let (res, evs') := load_custom_addons_loop env rest (acc ++ [addon])
        (res, evs ++ evs')
      | none =>
        let (res, evs') := load_custom_addons_loop env rest acc
        (res, evs ++ evs')

/-- Function `load_custom_addons` (source lines 45-82): when `custom_addons.json`
exists its parsed contents are returned as-is; otherwise the interactive
loop builds the list, which is then dumped to the file. -/
def load_custom_addons (cacheFile : Option (List Addon)) (env : InitEnv)
    (inputs : List String) : List Addon × List Event :=
  match cacheFile with
  | some addons => (addons, [])
  | none =>
    let (addons, evs) := load_custom_addons_loop env inputs []
    (addons, evs ++ [.fileWrite CUSTOM_ADDONS_FILE addons])

/-- The two modes offered by `main` (source lines 180-192). -/
inductive Mode where
  | batch
  | clone
  deriving Repr, DecidableEq

/-- The menu dispatch of `main`: `option = input(...).strip()`; only
`option == '2'` selects the clone workflow, everything else falls through
to batch processing. -/
def chooseMode (optionInput : String) : Mode :=
  if pyStrip optionInput.data = "2".data then .clone else .batch


/-! ## Concrete instances used by closed statements -/

/-- A default-allow-listed descriptor (`com.linvo.cinemeta`). -/
def cinemetaAddon : Addon :=
  { manifest := some { id := some "com.linvo.cinemeta", name := some "Cinemeta", flags := none },
    transportUrl := "https://v3-cinemeta.strem.io/manifest.json", flags := none }

/-- A non-default, non-keyword descriptor. -/
def fooAddon : Addon :=
  { manifest := some { id := some "org.example.foo", name := some "Foo", flags := none },
    transportUrl := "https://foo.example/manifest.json", flags := none }

/-- A keyword-matched descriptor (id contains `Trakt`). -/
def traktAddon : Addon :=
  { manifest := some { id := some "com.TraktTV.sync", name := some "Trakt Sync", flags := none },
    transportUrl := "https://trakt.example/manifest.json", flags := none }

/-- Another non-default, non-keyword descriptor. -/
def barAddon : Addon :=
  { manifest := some { id := some "org.example.bar", name := some "Bar", flags := none },
    transportUrl := "https://bar.example/manifest.json", flags := none }

/-- A descriptor lacking the `manifest` key entirely. -/
def badAddon : Addon :=
  { manifest := none, transportUrl := "https://bad.example/manifest.json", flags := none }

/-- An API oracle where every call succeeds: login yields `fresh-key`, the
collection is `[cinemetaAddon, fooAddon, traktAddon]` under either key. -/
def happyApi : Api :=
  { loginResult := fun _ _ => .ok "fresh-key",
    getAddonsResult := fun _ => .ok [cinemetaAddon, fooAddon, traktAddon],
    setResult := fun _ _ => .ok () }

/-- An API oracle where the stored token `stale` fails once and the fresh
key obtained by re-login works. -/
def staleTokenApi : Api :=
  { loginResult := fun _ _ => .ok "fresh-key",
    getAddonsResult := fun k => if k = "fresh-key" then .ok [cinemetaAddon, fooAddon] else .error "401",
    setResult := fun _ _ => .ok () }

/-- An API oracle where every fetch fails (stale token and failed retry). -/
def doubleFailApi : Api :=
  { loginResult := fun _ _ => .ok "fresh-key",
    getAddonsResult := fun _ => .error "401",
    setResult := fun _ _ => .ok () }

/-- An API oracle whose collection contains a descriptor with no
`manifest` key. -/
def malformedApi : Api :=
  { loginResult := fun _ _ => .ok "fresh-key",
    getAddonsResult := fun _ => .ok [cinemetaAddon, badAddon, fooAddon],
    setResult := fun _ _ => .ok () }

/-- A manifest-fetch oracle that succeeds on one URL and fails elsewhere. -/
def initEnv1 : InitEnv :=
  { fetchResult := fun url =>
      if url = "http://x/manifest.json" then
        .ok { id := some "org.example.foo", name := some "Foo", flags := none }
      else .error "404" }

/-- A manifest-fetch oracle that succeeds everywhere with a fixed manifest. -/
def initEnvOk : InitEnv :=
  { fetchResult := fun _ =>
      .ok { id := some "org.example.foo", name := some "Foo", flags := none } }

end StremioReaddon

namespace StremioReaddon

/-! ## Filter lemmas -/

theorem filterKeep_cons_ok {a : Addon} {i : String} (hm : manifestId a = .ok i)
    (rest : List Addon) :
    filterKeep (a :: rest) =
      (filterKeep rest).map fun tail => if keepId i then a :: tail else tail := by
  have hdef : filterKeep (a :: rest) = (do
      let i ← manifestId a
      let tail ← filterKeep rest
      pure (if keepId i then a :: tail else tail)) := rfl
  rw [hdef, hm]
  cases filterKeep rest <;> rfl

theorem filterKeep_cons_error {a : Addon} {e : String}
    (hm : manifestId a = .error e) (rest : List Addon) :
    filterKeep (a :: rest) = .error e := by
  have hdef : filterKeep (a :: rest) = (do
      let i ← manifestId a
      let tail ← filterKeep rest
      pure (if keepId i then a :: tail else tail)) := rfl
  rw [hdef, hm]
  rfl

theorem filterClone_cons_ok {a : Addon} {i : String} (hm : manifestId a = .ok i)
    (rest : List Addon) :
    filterClone (a :: rest) =
      (filterClone rest).map fun tail =>
        if !DEFAULT_ADDONS.contains i && !hasTrakt i then a :: tail else tail := by
  have hdef : filterClone (a :: rest) = (do
      let i ← manifestId a
      let tail ← filterClone rest
      pure (if !DEFAULT_ADDONS.contains i && !hasTrakt i then a :: tail else tail)) := rfl
  rw [hdef, hm]
  cases filterClone rest <;> rfl

theorem manifestId_ok_of_wf {c : List Addon} (h : WellFormed c) {a : Addon}
    (ha : a ∈ c) : manifestId a = .ok (idOf a) := by
  have hok := h a ha
  cases hm : manifestId a with
  | error e => rw [hm] at hok; simp [Except.isOk, Except.toBool] at hok
  | ok i => simp [idOf, hm, Except.toOption]

theorem filterKeep_eq_filter {c : List Addon} (h : WellFormed c) :
    filterKeep c = .ok (c.filter fun a => keepId (idOf a)) := by
  induction c with
  | nil => rfl
  | cons a rest ih =>
    have ha := manifestId_ok_of_wf h (List.mem_cons_self a rest)
    have hrest : WellFormed rest := fun x hx => h x (List.mem_cons_of_mem a hx)
    rw [filterKeep_cons_ok ha, ih hrest, List.filter_cons]
    by_cases hk : keepId (idOf a) <;> simp [hk, Except.map]

theorem filterClone_eq_filter {c : List Addon} (h : WellFormed c) :
    filterClone c = .ok (c.filter fun a => !keepId (idOf a)) := by
  induction c with
  | nil => rfl
  | cons a rest ih =>
    have ha := manifestId_ok_of_wf h (List.mem_cons_self a rest)
    have hrest : WellFormed rest := fun x hx => h x (List.mem_cons_of_mem a hx)
    rw [filterClone_cons_ok ha, ih hrest, List.filter_cons]
    have hco : (!DEFAULT_ADDONS.contains (idOf a) && !hasTrakt (idOf a))
        = !keepId (idOf a) := by
      simp [keepId]
    rw [hco]
    by_cases hk : keepId (idOf a) <;> simp [hk, Except.map]

theorem filterKeep_append {l₁ l₂ k₁ k₂ : List Addon}
    (h₁ : filterKeep l₁ = .ok k₁) (h₂ : filterKeep l₂ = .ok k₂) :
    filterKeep (l₁ ++ l₂) = .ok (k₁ ++ k₂) := by
  induction l₁ generalizing k₁ with
  | nil =>
    simp [filterKeep] at h₁
    subst h₁
    simpa using h₂
  | cons a rest ih =>
    cases hm : manifestId a with
    | error e => rw [filterKeep_cons_error hm] at h₁; exact absurd h₁ (by simp)
    | ok i =>
      rw [filterKeep_cons_ok hm] at h₁
      cases hr : filterKeep rest with
      | error e => rw [hr] at h₁; exact absurd h₁ (by simp [Except.map])
      | ok tail =>
        rw [hr] at h₁
        simp only [Except.map] at h₁
        rw [List.cons_append, filterKeep_cons_ok hm, ih hr]
        simp only [Except.map]
        by_cases hk : keepId i
        · simp [hk] at h₁ ⊢
          rw [← h₁]
          simp
        · simp [hk] at h₁ ⊢
          rw [← h₁]

theorem filterKeep_idem {c k : List Addon} (h : filterKeep c = .ok k) :
    filterKeep k = .ok k := by
  induction c generalizing k with
  | nil =>
    simp [filterKeep] at h
    subst h
    rfl
  | cons a rest ih =>
    cases hm : manifestId a with
    | error e => rw [filterKeep_cons_error hm] at h; exact absurd h (by simp)
    | ok i =>
      rw [filterKeep_cons_ok hm] at h
      cases hr : filterKeep rest with
      | error e => rw [hr] at h; exact absurd h (by simp [Except.map])
      | ok tail =>
        rw [hr] at h
        simp only [Except.map] at h
        by_cases hk : keepId i <;> simp [hk] at h <;> rw [← h]
        · rw [filterKeep_cons_ok hm, ih hr]
          simp [Except.map, hk]
        · exact ih hr

theorem filterKeep_error_of_bad {c : List Addon} {a : Addon} (ha : a ∈ c)
    (hbad : ¬ (manifestId a).isOk) : ∃ e, filterKeep c = .error e := by
  induction c with
  | nil => cases ha
  | cons b rest ih =>
    rcases List.mem_cons.mp ha with rfl | hmem
    · cases hm : manifestId a with
      | error e => exact ⟨e, filterKeep_cons_error hm rest⟩
      | ok i => rw [hm] at hbad; simp [Except.isOk, Except.toBool] at hbad
    · cases hm : manifestId b with
      | error e => exact ⟨e, filterKeep_cons_error hm rest⟩
      | ok i =>
        obtain ⟨e, he⟩ := ih hmem
        refine ⟨e, ?_⟩
        rw [filterKeep_cons_ok hm, he]
        rfl

end StremioReaddon

namespace StremioReaddon

/-! ## Workflow unfolding lemmas -/

theorem acquireAddons_stored_ok {tok : String} {api : Api} {c : List Addon}
    (email pw : String) (htok : tok ≠ "") (hc : api.getAddonsResult tok = .ok c) :
    acquireAddons email pw tok api =
      ([.getAddonsCall tok, .logLine email "Authenticated with stored auth token."],
       tok, .ok c) := by
  unfold acquireAddons
  rw [if_neg htok, hc]

theorem acquireAddons_stored_retry_ok {tok newKey e₀ : String} {api : Api}
    {c : List Addon} (email pw : String) (htok : tok ≠ "")
    (hc : api.getAddonsResult tok = .error e₀)
    (hl : api.loginResult email pw = .ok newKey)
    (hc₂ : api.getAddonsResult newKey = .ok c) :
    acquireAddons email pw tok api =
      ([.getAddonsCall tok, .logLine email "Stored auth token failed. Re-authenticating...",
        .loginCall email pw, .getAddonsCall newKey,
        .logLine email "Re-authenticated and updated auth token."],
       newKey, .ok c) := by
  unfold acquireAddons
  rw [if_neg htok]
  simp [hc, hl, hc₂]

theorem acquireAddons_stored_retry_fetch_fail {tok newKey e₀ e₂ : String} {api : Api}
    (email pw : String) (htok : tok ≠ "")
    (hc : api.getAddonsResult tok = .error e₀)
    (hl : api.loginResult email pw = .ok newKey)
    (hc₂ : api.getAddonsResult newKey = .error e₂) :
    acquireAddons email pw tok api =
      ([.getAddonsCall tok, .logLine email "Stored auth token failed. Re-authenticating...",
        .loginCall email pw, .getAddonsCall newKey],
       newKey, .error e₂) := by
  unfold acquireAddons
  rw [if_neg htok]
  simp [hc, hl, hc₂]

theorem acquireAddons_stored_retry_login_fail {tok e₀ e₁ : String} {api : Api}
    (email pw : String) (htok : tok ≠ "")
    (hc : api.getAddonsResult tok = .error e₀)
    (hl : api.loginResult email pw = .error e₁) :
    acquireAddons email pw tok api =
      ([.getAddonsCall tok, .logLine email "Stored auth token failed. Re-authenticating...",
        .loginCall email pw],
       tok, .error e₁) := by
  unfold acquireAddons
  rw [if_neg htok]
  simp [hc, hl]

theorem acquireAddons_fresh_ok {newKey : String} {api : Api} {c : List Addon}
    (email pw : String) (hl : api.loginResult email pw = .ok newKey)
    (hc : api.getAddonsResult newKey = .ok c) :
    acquireAddons email pw "" api =
      ([.logLine email "No stored token. Logging in...",
        .loginCall email pw, .getAddonsCall newKey,
        .logLine email "Logged in and stored new auth token."],
       newKey, .ok c) := by
  unfold acquireAddons
  rw [if_pos rfl]
  simp [hl, hc]

theorem acquireAddons_fresh_login_fail {e₁ : String} {api : Api}
    (email pw : String) (hl : api.loginResult email pw = .error e₁) :
    acquireAddons email pw "" api =
      ([.logLine email "No stored token. Logging in...", .loginCall email pw],
       "", .error e₁) := by
  unfold acquireAddons
  rw [if_pos rfl]
  simp [hl]

theorem acquireAddons_fresh_fetch_fail {newKey e₂ : String} {api : Api}
    (email pw : String) (hl : api.loginResult email pw = .ok newKey)
    (hc : api.getAddonsResult newKey = .error e₂) :
    acquireAddons email pw "" api =
      ([.logLine email "No stored token. Logging in...",
        .loginCall email pw, .getAddonsCall newKey],
       newKey, .error e₂) := by
  unfold acquireAddons
  rw [if_pos rfl]
  simp [hl, hc]

end StremioReaddon

namespace StremioReaddon

/-! ## Body and wrapper unfolding lemmas -/

theorem body_acquire_error {email pw auth_key tok e : String} {api : Api}
    {evs : List Event} (cache : List Addon)
    (h : acquireAddons email pw auth_key api = (evs, tok, .error e)) :
    process_account_body email pw auth_key api cache = (evs, tok, .error e) := by
  unfold process_account_body
  rw [h]

theorem body_filter_error {email pw auth_key tok e : String} {api : Api}
    {evs : List Event} {c : List Addon} (cache : List Addon)
    (h : acquireAddons email pw auth_key api = (evs, tok, .ok c))
    (hf : filterKeep c = .error e) :
    process_account_body email pw auth_key api cache = (evs, tok, .error e) := by
  unfold process_account_body
  rw [h]
  simp [hf]

theorem body_set_ok {email pw auth_key tok : String} {api : Api}
    {evs : List Event} {c kept : List Addon} (cache : List Addon)
    (h : acquireAddons email pw auth_key api = (evs, tok, .ok c))
    (hf : filterKeep c = .ok kept)
    (hs : api.setResult tok (kept ++ cache) = .ok ()) :
    process_account_body email pw auth_key api cache =
      (evs ++ [.logLine email "Processed addons successfully.",
               .setAddonsCall tok (kept ++ cache),
               .logLine "UPDATE" "Addons updated successfully."],
       tok, .ok (kept ++ cache)) := by
  unfold process_account_body
  rw [h]
  simp [hf, hs]

theorem body_set_error {email pw auth_key tok e : String} {api : Api}
    {evs : List Event} {c kept : List Addon} (cache : List Addon)
    (h : acquireAddons email pw auth_key api = (evs, tok, .ok c))
    (hf : filterKeep c = .ok kept)
    (hs : api.setResult tok (kept ++ cache) = .error e) :
    process_account_body email pw auth_key api cache =
      (evs ++ [.logLine email "Processed addons successfully.",
               .setAddonsCall tok (kept ++ cache)],
       tok, .error e) := by
  unfold process_account_body
  rw [h]
  simp [hf, hs]

theorem process_account_of_ok {email pw auth_key tok : String} {api : Api}
    {cache evsB out : List _} (h : process_account_body email pw auth_key api cache
      = (evsB, tok, .ok out)) :
    process_account email pw auth_key api cache = ⟨evsB, tok⟩ := by
  unfold process_account
  rw [h]

theorem process_account_of_error {email pw auth_key tok e : String} {api : Api}
    {cache : List Addon} {evsB : List Event}
    (h : process_account_body email pw auth_key api cache = (evsB, tok, .error e)) :
    process_account email pw auth_key api cache
      = ⟨evsB ++ [.logLine email ("Error: " ++ e)], tok⟩ := by
  unfold process_account
  rw [h]

/-- The acquisition phase makes no `setAddonsCall` and writes no file. -/
theorem acquire_events_props (email pw auth_key : String) (api : Api) :
    ∀ e ∈ (acquireAddons email pw auth_key api).1,
      isSetCall e = false ∧ ∀ p, writesFile p e = false := by
  by_cases htok : auth_key = ""
  · subst htok
    cases hl : api.loginResult email pw with
    | error e₁ =>
      rw [acquireAddons_fresh_login_fail email pw hl]
      simp [isSetCall, writesFile]
    | ok k =>
      cases hc : api.getAddonsResult k with
      | error e₂ =>
        rw [acquireAddons_fresh_fetch_fail email pw hl hc]
        simp [isSetCall, writesFile]
      | ok c =>
        rw [acquireAddons_fresh_ok email pw hl hc]
        simp [isSetCall, writesFile]
  · cases hc : api.getAddonsResult auth_key with
    | ok c =>
      rw [acquireAddons_stored_ok email pw htok hc]
      simp [isSetCall, writesFile]
    | error e₀ =>
      cases hl : api.loginResult email pw with
      | error e₁ =>
        rw [acquireAddons_stored_retry_login_fail email pw htok hc hl]
        simp [isSetCall, writesFile]
      | ok k =>
        cases hc₂ : api.getAddonsResult k with
        | error e₂ =>
          rw [acquireAddons_stored_retry_fetch_fail email pw htok hc hl hc₂]
          simp [isSetCall, writesFile]
        | ok c =>
          rw [acquireAddons_stored_retry_ok email pw htok hc hl hc₂]
          simp [isSetCall, writesFile]

/-- Decomposition: `process_account` = acquisition events plus a tail that contains no
further authentication or fetch and writes no file; the in-memory token is
the one the acquisition phase left. -/
theorem process_account_shape (email pw auth_key : String) (api : Api)
    (cache : List Addon) :
    ∃ extra,
      (process_account email pw auth_key api cache).events
        = (acquireAddons email pw auth_key api).1 ++ extra
      ∧ (process_account email pw auth_key api cache).authToken
        = (acquireAddons email pw auth_key api).2.1
      ∧ ∀ e ∈ extra, isLoginCall e = false ∧ isGetCall e = false
          ∧ ∀ p, writesFile p e = false := by
  rcases hacq : acquireAddons email pw auth_key api with ⟨evs, tok, fetched⟩
  cases fetched with
  | error e =>
    rw [process_account_of_error (body_acquire_error cache hacq)]
    exact ⟨[Event.logLine email ("Error: " ++ e)], rfl, rfl,
      by simp [isLoginCall, isGetCall, writesFile]⟩
  | ok c =>
    cases hf : filterKeep c with
    | error e =>
      rw [process_account_of_error (body_filter_error cache hacq hf)]
      exact ⟨[Event.logLine email ("Error: " ++ e)], rfl, rfl,
        by simp [isLoginCall, isGetCall, writesFile]⟩
    | ok kept =>
      cases hs : api.setResult tok (kept ++ cache) with
      | ok u =>
        cases u
        rw [process_account_of_ok (body_set_ok cache hacq hf hs)]
        exact ⟨[Event.logLine email "Processed addons successfully.",
                Event.setAddonsCall tok (kept ++ cache),
                Event.logLine "UPDATE" "Addons updated successfully."], rfl, rfl,
          by simp [isLoginCall, isGetCall, writesFile]⟩
      | error e =>
        rw [process_account_of_error (body_set_error cache hacq hf hs)]
        refine ⟨[Event.logLine email "Processed addons successfully.",
                 Event.setAddonsCall tok (kept ++ cache),
                 Event.logLine email ("Error: " ++ e)], by simp, rfl, ?_⟩
        simp [isLoginCall, isGetCall, writesFile]

end StremioReaddon

namespace StremioReaddon

/-- Shared success-path lemma: when the acquisition phase yields a
well-formed collection `c`, the account's trace contains exactly one
`setAddonsCall`, whose payload is `c` filtered by the keep-predicate
followed by the cache. -/
theorem process_events_setFilter {email pw auth_key tok : String} {api : Api}
    {evs : List Event} {c : List Addon} (cache : List Addon)
    (hacq : acquireAddons email pw auth_key api = (evs, tok, .ok c))
    (hwf : WellFormed c) :
    (process_account email pw auth_key api cache).events.filter isSetCall
      = [.setAddonsCall tok ((c.filter fun a => keepId (idOf a)) ++ cache)] := by
  have hf := filterKeep_eq_filter hwf
  have hno := acquire_events_props email pw auth_key api
  rw [hacq] at hno
  have hevs : evs.filter isSetCall = [] :=
    List.filter_eq_nil_iff.mpr fun a ha => by simp [(hno a ha).1]
  cases hs : api.setResult tok ((c.filter fun a => keepId (idOf a)) ++ cache) with
  | ok u =>
    cases u
    rw [process_account_of_ok (body_set_ok cache hacq hf hs)]
    simp [List.filter_append, hevs, isSetCall]
  | error e =>
    rw [process_account_of_error (body_set_error cache hacq hf hs)]
    simp [List.filter_append, hevs, isSetCall]

/-- C1: for every account whose collection fetch succeeds with a
well-formed collection, `process_account` performs exactly one collection
write, and the collection written back equals the fetched collection
filtered to addons whose manifest id is a member of `DEFAULT_ADDONS` or
contains the keyword `trakt` case-insensitively (kept in their original
relative order), followed by the custom-addon cache in cache order — no
reordering within a segment and no de-duplication. -/
theorem C1_written_collection (email pw auth_key : String) (api : Api)
    (cache : List Addon) {evs : List Event} {tok : String} {c : List Addon}
    (hacq : acquireAddons email pw auth_key api = (evs, tok, .ok c))
    (hwf : WellFormed c) :
    (process_account email pw auth_key api cache).events.filter isSetCall
      = [.setAddonsCall tok ((c.filter fun a => keepId (idOf a)) ++ cache)] :=
  process_events_setFilter cache hacq hwf

/-- C1 witness: the spec's own scenario — remote collection
`[cinemeta, foo, trakt-sync]` with cache `[bar]` results in the written
collection `[cinemeta, trakt-sync, bar]`: `foo` removed, `bar` appended,
order preserved within each segment. -/
theorem C1_witness :
    (process_account "a@b.c" "pw" "tok" happyApi [barAddon]).events.filter isSetCall
      = [.setAddonsCall "tok" [cinemetaAddon, traktAddon, barAddon]] :=
  C1_written_collection "a@b.c" "pw" "tok" happyApi [barAddon] rfl
    (by intro a ha; fin_cases ha <;> rfl)

end StremioReaddon

namespace StremioReaddon

/-- C4 counterexample: the filter-and-append transformation is not a fixed
point on its own output for every cache.  With cache `[cinemetaAddon]`
(a default-allow-listed entry) and an empty remote collection, the first
run yields `[cinemetaAddon]` but feeding that back in yields
`[cinemetaAddon, cinemetaAddon]` — the cache entry survives the second
run's filter and is appended again. -/
theorem C4_counterexample :
    processColl [] [cinemetaAddon] = .ok [cinemetaAddon] ∧
    processColl [cinemetaAddon] [cinemetaAddon]
      = .ok [cinemetaAddon, cinemetaAddon] ∧
    processColl [cinemetaAddon] [cinemetaAddon]
      ≠ processColl [] [cinemetaAddon] := by
  refine ⟨rfl, rfl, ?_⟩
  decide

/-- C4 (amended): the filter-and-append transformation is a fixed point on
its own output provided no cache entry itself passes the keep-filter —
which holds for every cache produced by the clone workflow, whose filter
is the exact complement of the keep-filter. -/
theorem C4_idempotent_on_clone_caches (c : List Addon) {cache out : List Addon}
    (hcache : filterKeep cache = .ok [])
    (h : processColl c cache = .ok out) :
    processColl out cache = .ok out := by
  unfold processColl at h ⊢
  cases hk : filterKeep c with
  | error e =>
    rw [hk] at h
    exact absurd h (by simp [Except.map])
  | ok kept =>
    rw [hk] at h
    simp only [Except.map] at h
    have hout : kept ++ cache = out := by
      injection h
    have h2 : filterKeep out = .ok kept := by
      rw [← hout]
      have := filterKeep_append (filterKeep_idem hk) hcache
      simpa using this
    rw [h2]
    simp [Except.map, hout]

/-- C4 witness: with remote collection `[cinemeta, bar]` and the
clone-produced cache `[foo]`, the first run yields `[cinemeta, foo]` and a
second run on that output yields it unchanged. -/
theorem C4_witness :
    processColl [cinemetaAddon, fooAddon] [fooAddon]
      = .ok [cinemetaAddon, fooAddon] :=
  C4_idempotent_on_clone_caches [cinemetaAddon, barAddon] rfl rfl

end StremioReaddon

namespace StremioReaddon

/-- Success path of `clone_addons`: the filtered remainder is dumped to
`custom_addons.json` and returned, whether or not the follow-up log line
(which reads each `manifest.name`) succeeds. -/
theorem clone_addons_ok {emailA pwA keyA : String} {apiA : Api}
    {A dA : List Addon}
    (hl : apiA.loginResult emailA pwA = .ok keyA)
    (hc : apiA.getAddonsResult keyA = .ok A)
    (hd : filterClone A = .ok dA) :
    (clone_addons emailA pwA apiA).2 = some dA ∧
    Event.fileWrite CUSTOM_ADDONS_FILE dA ∈ (clone_addons emailA pwA apiA).1 := by
  unfold clone_addons
  simp only [hl, hc, hd]
  cases hn : cloneNames dA <;> simp

/-- C5: cloning account A's collection into the cache and then processing
account B with that cache writes back exactly B's default/keyword-matched
addons (in order) followed by exactly A's non-default, non-keyword addons
(in order); the clone filter and the process filter are complementary, so
together they partition every well-formed collection. -/
theorem C5_clone_then_process (emailA pwA emailB pwB tokB : String)
    (apiA apiB : Api) {keyA : String} {A B : List Addon}
    (hlA : apiA.loginResult emailA pwA = .ok keyA)
    (hcA : apiA.getAddonsResult keyA = .ok A) (hwfA : WellFormed A)
    (htokB : tokB ≠ "") (hcB : apiB.getAddonsResult tokB = .ok B)
    (hwfB : WellFormed B) :
    (clone_addons emailA pwA apiA).2
        = some (A.filter fun a => !keepId (idOf a)) ∧
    Event.fileWrite CUSTOM_ADDONS_FILE (A.filter fun a => !keepId (idOf a))
        ∈ (clone_addons emailA pwA apiA).1 ∧
    (process_account emailB pwB tokB apiB
        (A.filter fun a => !keepId (idOf a))).events.filter isSetCall
      = [.setAddonsCall tokB
          ((B.filter fun a => keepId (idOf a))
            ++ (A.filter fun a => !keepId (idOf a)))] ∧
    ∀ C : List Addon,
      ((C.filter fun a => keepId (idOf a))
        ++ (C.filter fun a => !keepId (idOf a))).Perm C := by
  obtain ⟨h1, h2⟩ := clone_addons_ok hlA hcA (filterClone_eq_filter hwfA)
  refine ⟨h1, h2, ?_, ?_⟩
  · exact process_events_setFilter _ (acquireAddons_stored_ok emailB pwB htokB hcB) hwfB
  · intro C
    exact List.filter_append_perm _ C

/-- C5 witness: cloning from an account whose collection is
`[cinemeta, foo, trakt-sync]` caches `[foo]`; processing an account whose
collection is `[cinemeta, foo]` with that cache writes back
`[cinemeta, foo]` (B's kept addon followed by A's cloned addon). -/
theorem C5_witness :
    (clone_addons "a@b.c" "pwA" happyApi).2 = some [fooAddon] ∧
    (process_account "d@e.f" "pwB" "fresh-key" staleTokenApi [fooAddon]).events.filter
        isSetCall
      = [.setAddonsCall "fresh-key" [cinemetaAddon, fooAddon]] := by
  have h := C5_clone_then_process "a@b.c" "pwA" "d@e.f" "pwB" "fresh-key"
    happyApi staleTokenApi rfl rfl
    (by intro a ha; fin_cases ha <;> rfl) (by decide) rfl
    (by intro a ha; fin_cases ha <;> rfl)
  exact ⟨h.1, h.2.2.1⟩

end StremioReaddon

namespace StremioReaddon

/-- The batch trace is the concatenation of each account's own trace,
each computed independently of the other accounts' outcomes. -/
theorem runBatch_events (api : Api) (cache : List Addon)
    (rows : List (String × CredRow)) :
    (runBatch api cache rows).1
      = (rows.map fun row =>
          (process_account row.1 row.2.password row.2.auth_token api cache).events).flatten := by
  induction rows with
  | nil => rfl
  | cons r rest ih =>
    obtain ⟨email, row⟩ := r
    unfold runBatch
    rcases hr : runBatch api cache rest with ⟨evs, rows'⟩
    rw [hr] at ih
    simp only [List.map_cons, List.flatten_cons, ← ih]

/-- Every credential row yields an entry in the final in-memory table. -/
theorem runBatch_length (api : Api) (cache : List Addon)
    (rows : List (String × CredRow)) :
    (runBatch api cache rows).2.length = rows.length := by
  induction rows with
  | nil => rfl
  | cons r rest ih =>
    obtain ⟨email, row⟩ := r
    unfold runBatch
    rcases hr : runBatch api cache rest with ⟨evs, rows'⟩
    rw [hr] at ih
    simpa using ih

/-- Lemma: `process_account` never writes the credential store file. -/
theorem process_account_no_csv (email pw auth_key : String) (api : Api)
    (cache : List Addon) :
    (process_account email pw auth_key api cache).events.filter
      (writesFile LOGIN_CSV_FILE) = [] := by
  obtain ⟨extra, hev, -, hextra⟩ := process_account_shape email pw auth_key api cache
  rw [hev, List.filter_append]
  have h1 : (acquireAddons email pw auth_key api).1.filter
      (writesFile LOGIN_CSV_FILE) = [] :=
    List.filter_eq_nil_iff.mpr fun a ha => by
      simp [(acquire_events_props email pw auth_key api a ha).2 LOGIN_CSV_FILE]
  have h2 : extra.filter (writesFile LOGIN_CSV_FILE) = [] :=
    List.filter_eq_nil_iff.mpr fun a ha => by
      simp [(hextra a ha).2.2 LOGIN_CSV_FILE]
  rw [h1, h2]
  rfl

/-- No event of the whole batch writes the credential store file. -/
theorem runBatch_no_csv (api : Api) (cache : List Addon)
    (rows : List (String × CredRow)) :
    (runBatch api cache rows).1.filter (writesFile LOGIN_CSV_FILE) = [] := by
  induction rows with
  | nil => rfl
  | cons r rest ih =>
    obtain ⟨email, row⟩ := r
    unfold runBatch
    rcases hr : runBatch api cache rest with ⟨evs, rows'⟩
    rw [hr] at ih
    simp only [List.filter_append, ih]
    simp [process_account_no_csv]

/-- C2 counterexample: an account with a blank stored token is freshly
authenticated and its collection update completes, yet the full event
trace contains no write of the credential store file `stremio_logins.csv`
at all — the store is never rewritten, before or after the update. -/
theorem C2_counterexample :
    (process_account "user@example.com" "pw" "" happyApi []).events.filter
        (writesFile LOGIN_CSV_FILE) = [] ∧
    (process_account "user@example.com" "pw" "" happyApi []).events.filter
        isLoginCall
      = [.loginCall "user@example.com" "pw"] ∧
    (process_account "user@example.com" "pw" "" happyApi []).events.filter
        isSetCall
      = [.setAddonsCall "fresh-key" [cinemetaAddon, traktAddon]] := by
  refine ⟨?_, ?_, ?_⟩ <;> rfl

/-- C2 (amended): on a blank stored token, `Authenticate` is called exactly
once and the fresh token is cached immediately — but only in the in-memory
credential table (`login_data[email]['auth_token']`); the credential store
file is never rewritten by the account processor or by the whole batch, so
tokens obtained during a run are lost when the process exits. -/
theorem C2_token_cached_in_memory_only (email pw k : String) (api : Api)
    (cache : List Addon)
    (hl : api.loginResult email pw = .ok k) :
    (process_account email pw "" api cache).authToken = k ∧
    (process_account email pw "" api cache).events.filter isLoginCall
      = [.loginCall email pw] ∧
    (process_account email pw "" api cache).events.filter
      (writesFile LOGIN_CSV_FILE) = [] ∧
    ∀ rows : List (String × CredRow),
      (runBatch api cache rows).1.filter (writesFile LOGIN_CSV_FILE) = [] := by
  obtain ⟨extra, hev, htok, hextra⟩ := process_account_shape email pw "" api cache
  have hexlogin : extra.filter isLoginCall = [] :=
    List.filter_eq_nil_iff.mpr fun a ha => by simp [(hextra a ha).1]
  refine ⟨?_, ?_, process_account_no_csv email pw "" api cache,
    runBatch_no_csv api cache⟩
  · rw [htok]
    cases hc : api.getAddonsResult k with
    | ok c => rw [acquireAddons_fresh_ok email pw hl hc]
    | error e => rw [acquireAddons_fresh_fetch_fail email pw hl hc]
  · rw [hev, List.filter_append, hexlogin]
    cases hc : api.getAddonsResult k with
    | ok c =>
      rw [acquireAddons_fresh_ok email pw hl hc]
      simp [isLoginCall]
    | error e =>
      rw [acquireAddons_fresh_fetch_fail email pw hl hc]
      simp [isLoginCall]

/-- C2 witness: concrete instance of the amended claim. -/
theorem C2_witness :
    (process_account "user@example.com" "pw" "" happyApi []).authToken
      = "fresh-key" ∧
    (runBatch happyApi [] [("user@example.com", ⟨"pw", ""⟩)]).1.filter
      (writesFile LOGIN_CSV_FILE) = [] := by
  have h := C2_token_cached_in_memory_only "user@example.com" "pw" "fresh-key"
    happyApi [] rfl
  exact ⟨h.1, h.2.2.2 [("user@example.com", ⟨"pw", ""⟩)]⟩

end StremioReaddon

namespace StremioReaddon

/-- C3: with a non-empty stored token, the collection fetch is attempted
first — the account's trace begins with it, before any authenticate; a
successful first fetch triggers no authenticate at all; if the first
fetch fails there is exactly one fresh authenticate, and when that
succeeds exactly one retried fetch (two fetch attempts in total, no
further retries); a failure of the retried fetch is logged for the
account as `Error: ...` with no collection update attempted, so the run
does not crash. -/
theorem C3_optimistic_token (email pw tok : String) (api : Api)
    (cache : List Addon) (htok : tok ≠ "") :
    (∃ rest, (process_account email pw tok api cache).events
        = .getAddonsCall tok :: rest) ∧
    (∀ c, api.getAddonsResult tok = .ok c →
      (process_account email pw tok api cache).events.filter isLoginCall = []) ∧
    (∀ e₀, api.getAddonsResult tok = .error e₀ →
      ((process_account email pw tok api cache).events.filter isLoginCall).length
          = 1 ∧
      (∀ k, api.loginResult email pw = .ok k →
        ((process_account email pw tok api cache).events.filter isGetCall).length
            = 2 ∧
        (∀ e₂, api.getAddonsResult k = .error e₂ →
          (process_account email pw tok api cache).events.filter isSetCall = [] ∧
          Event.logLine email ("Error: " ++ e₂)
            ∈ (process_account email pw tok api cache).events))) := by
  obtain ⟨extra, hev, -, hextra⟩ := process_account_shape email pw tok api cache
  have hexlogin : extra.filter isLoginCall = [] :=
    List.filter_eq_nil_iff.mpr fun a ha => by simp [(hextra a ha).1]
  have hexget : extra.filter isGetCall = [] :=
    List.filter_eq_nil_iff.mpr fun a ha => by simp [(hextra a ha).2.1]
  refine ⟨?_, ?_, ?_⟩
  · cases hc : api.getAddonsResult tok with
    | ok c =>
      rw [acquireAddons_stored_ok email pw htok hc] at hev
      exact ⟨_, hev⟩
    | error e₀ =>
      cases hl : api.loginResult email pw with
      | error e₁ =>
        rw [acquireAddons_stored_retry_login_fail email pw htok hc hl] at hev
        exact ⟨_, hev⟩
      | ok k =>
        cases hc₂ : api.getAddonsResult k with
        | error e₂ =>
          rw [acquireAddons_stored_retry_fetch_fail email pw htok hc hl hc₂] at hev
          exact ⟨_, hev⟩
        | ok c =>
          rw [acquireAddons_stored_retry_ok email pw htok hc hl hc₂] at hev
          exact ⟨_, hev⟩
  · intro c hc
    rw [acquireAddons_stored_ok email pw htok hc] at hev
    rw [hev, List.filter_append, hexlogin]
    simp [isLoginCall]
  · intro e₀ hc
    constructor
    · cases hl : api.loginResult email pw with
      | error e₁ =>
        rw [acquireAddons_stored_retry_login_fail email pw htok hc hl] at hev
        rw [hev, List.filter_append, hexlogin]
        simp [isLoginCall]
      | ok k =>
        cases hc₂ : api.getAddonsResult k with
        | error e₂ =>
          rw [acquireAddons_stored_retry_fetch_fail email pw htok hc hl hc₂] at hev
          rw [hev, List.filter_append, hexlogin]
          simp [isLoginCall]
        | ok c =>
          rw [acquireAddons_stored_retry_ok email pw htok hc hl hc₂] at hev
          rw [hev, List.filter_append, hexlogin]
          simp [isLoginCall]
    · intro k hl
      constructor
      · cases hc₂ : api.getAddonsResult k with
        | error e₂ =>
          rw [acquireAddons_stored_retry_fetch_fail email pw htok hc hl hc₂] at hev
          rw [hev, List.filter_append, hexget]
          simp [isGetCall]
        | ok c =>
          rw [acquireAddons_stored_retry_ok email pw htok hc hl hc₂] at hev
          rw [hev, List.filter_append, hexget]
          simp [isGetCall]
      · intro e₂ hc₂
        have hacq := acquireAddons_stored_retry_fetch_fail email pw htok hc hl hc₂
        rw [process_account_of_error (body_acquire_error cache hacq)]
        constructor
        · simp [isSetCall]
        · simp

/-- C3 witness: with the stale token `stale`, the fetch is attempted
first, then exactly one re-authentication and one retried fetch occur. -/
theorem C3_witness :
    (∃ rest, (process_account "a@b.c" "pw" "stale" staleTokenApi []).events
        = .getAddonsCall "stale" :: rest) ∧
    ((process_account "a@b.c" "pw" "stale" staleTokenApi []).events.filter
        isLoginCall).length = 1 ∧
    ((process_account "a@b.c" "pw" "stale" staleTokenApi []).events.filter
        isGetCall).length = 2 := by
  have h := C3_optimistic_token "a@b.c" "pw" "stale" staleTokenApi [] (by decide)
  have h3 := h.2.2 "401" rfl
  exact ⟨h.1, h3.1, (h3.2 "fresh-key" rfl).1⟩

end StremioReaddon

namespace StremioReaddon

/-- C7: per-account errors are caught at the account-processor boundary —
any error leaving the `try`-block body is turned into a per-account
`Error: ...` log line tagged with the account identifier — and the batch
trace is the concatenation of every row's own independently computed
trace, with one final credential entry per row, so no per-account failure
aborts or alters the processing of the other accounts. -/
theorem C7_batch_isolation (api : Api) (cache : List Addon)
    (rows : List (String × CredRow)) :
    (runBatch api cache rows).1
      = (rows.map fun row =>
          (process_account row.1 row.2.password row.2.auth_token api cache).events).flatten ∧
    (runBatch api cache rows).2.length = rows.length ∧
    ∀ email pw tok (evs : List Event) (tokF e : String),
      process_account_body email pw tok api cache = (evs, tokF, .error e) →
      (process_account email pw tok api cache).events
        = evs ++ [.logLine email ("Error: " ++ e)] := by
  refine ⟨runBatch_events api cache rows, runBatch_length api cache rows, ?_⟩
  intro email pw tok evs tokF e h
  rw [process_account_of_error h]

/-- C7 witness: a batch of two rows where the first account's processing
fails (both fetches reject) still processes the second account, whose
collection update succeeds; the failing account gets its own
`Error:`-tagged log line. -/
theorem C7_witness :
    (runBatch doubleFailApi [] [("a@b.c", ⟨"pw", "stale"⟩), ("d@e.f", ⟨"pw2", "tok2"⟩)]).1
      = (process_account "a@b.c" "pw" "stale" doubleFailApi []).events
        ++ (process_account "d@e.f" "pw2" "tok2" doubleFailApi []).events ∧
    (process_account "a@b.c" "pw" "stale" doubleFailApi []).events
      = [.getAddonsCall "stale",
         .logLine "a@b.c" "Stored auth token failed. Re-authenticating...",
         .loginCall "a@b.c" "pw", .getAddonsCall "fresh-key"]
        ++ [.logLine "a@b.c" ("Error: " ++ "401")] := by
  have h := C7_batch_isolation doubleFailApi []
    [("a@b.c", ⟨"pw", "stale"⟩), ("d@e.f", ⟨"pw2", "tok2"⟩)]
  refine ⟨by rw [h.1]; simp, ?_⟩
  exact h.2.2 "a@b.c" "pw" "stale"
    [.getAddonsCall "stale",
     .logLine "a@b.c" "Stored auth token failed. Re-authenticating...",
     .loginCall "a@b.c" "pw", .getAddonsCall "fresh-key"] "fresh-key" "401" rfl

/-- C9: if the fetched collection contains a descriptor lacking the
`manifest` key or a manifest lacking the `id` key, the filtering step
raises before `update_addons` is ever reached: the account's trace
contains no `setAddonsCall` whatsoever (the remote collection is left
unchanged) and ends with the per-account `Error: ...` log line. -/
theorem C9_malformed_aborts_update (email pw auth_key : String) (api : Api)
    (cache : List Addon) {evs : List Event} {tok : String} {c : List Addon}
    {a : Addon}
    (hacq : acquireAddons email pw auth_key api = (evs, tok, .ok c))
    (ha : a ∈ c) (hbad : ¬ (manifestId a).isOk) :
    (∀ k p, Event.setAddonsCall k p
        ∉ (process_account email pw auth_key api cache).events) ∧
    ∃ e, filterKeep c = .error e ∧
      Event.logLine email ("Error: " ++ e)
        ∈ (process_account email pw auth_key api cache).events := by
  obtain ⟨e, he⟩ := filterKeep_error_of_bad ha hbad
  have hno := acquire_events_props email pw auth_key api
  rw [hacq] at hno
  rw [process_account_of_error (body_filter_error cache hacq he)]
  constructor
  · intro k p hmem
    rcases List.mem_append.mp hmem with hin | hin
    · have := (hno _ hin).1
      simp [isSetCall] at this
    · simp at hin
  · exact ⟨e, he, by simp⟩

/-- C9 witness: a collection containing a descriptor with no `manifest`
key aborts the account with a logged `KeyError` and no collection write. -/
theorem C9_witness :
    (∀ k p, Event.setAddonsCall k p
        ∉ (process_account "a@b.c" "pw" "tok" malformedApi []).events) ∧
    ∃ e, filterKeep [cinemetaAddon, badAddon, fooAddon] = .error e ∧
      Event.logLine "a@b.c" ("Error: " ++ e)
        ∈ (process_account "a@b.c" "pw" "tok" malformedApi []).events :=
  C9_malformed_aborts_update (a := badAddon) "a@b.c" "pw" "tok" malformedApi []
    (acquireAddons_stored_ok "a@b.c" "pw" (by decide) rfl)
    (by decide) (by decide)

end StremioReaddon

namespace StremioReaddon

/-- C6: `fetch_manifest` is total — it returns the parsed manifest on
success and `none` (never an exception) on any failure, and each failure
is logged as an informational `INIT` event naming the URL and the error. -/
theorem C6_fetch_manifest_total (url : String) (env : InitEnv) :
    (fetch_manifest url env).1 = (env.fetchResult url).toOption ∧
    (∀ m, env.fetchResult url = .ok m →
      fetch_manifest url env
        = (some m, [.logLine "INIT" ("Fetched manifest from " ++ url ++ ".")])) ∧
    (∀ e, env.fetchResult url = .error e →
      fetch_manifest url env
        = (none,
           [.logLine "INIT"
             ("Failed to fetch manifest from " ++ url ++ ". Error: " ++ e)])) := by
  refine ⟨?_, ?_, ?_⟩
  · unfold fetch_manifest
    cases env.fetchResult url <;> rfl
  · intro m hm
    unfold fetch_manifest
    rw [hm]
  · intro e he
    unfold fetch_manifest
    rw [he]

/-- C6 witness: a failing URL yields `none` plus the informational log
line; the succeeding URL yields the parsed manifest. -/
theorem C6_witness :
    (fetch_manifest "http://bad/manifest.json" initEnv1).1 = none ∧
    fetch_manifest "http://bad/manifest.json" initEnv1
      = (none,
         [.logLine "INIT"
           ("Failed to fetch manifest from " ++ "http://bad/manifest.json"
             ++ ". Error: " ++ "404")]) ∧
    (fetch_manifest "http://x/manifest.json" initEnv1).1
      = some { id := some "org.example.foo", name := some "Foo", flags := none } := by
  have hbad := C6_fetch_manifest_total "http://bad/manifest.json" initEnv1
  have hok := C6_fetch_manifest_total "http://x/manifest.json" initEnv1
  refine ⟨by rw [hbad.1]; rfl, hbad.2.2 "404" rfl, ?_⟩
  rw [hok.1]
  rfl

/-- C10: the menu dispatch strips the input and compares it with the
literal `2`: every stripped input other than `2` — including `1`, the
empty line, and arbitrary text — selects the batch-processing mode, and
only the stripped input `2` selects the clone workflow (`1` is never
specifically checked). -/
theorem C10_menu_dispatch (s : String) :
    (pyStrip s.data ≠ "2".data → chooseMode s = .batch) ∧
    (pyStrip s.data = "2".data → chooseMode s = .clone) ∧
    chooseMode "1" = .batch ∧ chooseMode "" = .batch ∧
    chooseMode "install everything" = .batch ∧ chooseMode " 2 " = .clone := by
  refine ⟨?_, ?_, rfl, rfl, rfl, rfl⟩
  · intro h
    unfold chooseMode
    rw [if_neg h]
  · intro h
    unfold chooseMode
    rw [if_pos h]

/-- C10 witness: concrete dispatches, including a non-`2` input handled by
the first (hypothesis-guarded) clause. -/
theorem C10_witness :
    chooseMode "3" = .batch ∧ chooseMode "2" = .clone :=
  ⟨(C10_menu_dispatch "3").1 (by decide), (C10_menu_dispatch "2").2.1 (by decide)⟩

end StremioReaddon

namespace StremioReaddon

/-! ## Replace lemmas for the URL normalization -/

theorem pyStartsWith_append_self (l x : List Char) :
    pyStartsWith l (l ++ x) = true := by
  induction l with
  | nil => rfl
  | cons c cs ih => simp [pyStartsWith, ih]

theorem pyReplaceAux_skip (pat rep : List Char) (s : List Char) :
    pyReplaceAux pat rep s.length s = [] := by
  induction s with
  | nil => rfl
  | cons c cs ih => simpa [pyReplaceAux] using ih

theorem pyReplaceAux_zero_cons (pat rep : List Char) (c : Char)
    (rest : List Char) :
    pyReplaceAux pat rep 0 (c :: rest) =
      if pyStartsWith pat (c :: rest) && !pat.isEmpty then
        rep ++ pyReplaceAux pat rep (pat.length - 1) rest
      else c :: pyReplaceAux pat rep 0 rest := rfl

/-- When the pattern's only match position in `p ++ pat` is the final one,
replacing rewrites exactly the trailing occurrence. -/
theorem pyReplace_single_tail (pat rep : List Char) (hpat : pat ≠ []) :
    ∀ p : List Char,
      (∀ k, k < p.length → pyStartsWith pat ((p ++ pat).drop k) = false) →
      pyReplace pat rep (p ++ pat) = p ++ rep := by
  intro p
  induction p with
  | nil =>
    intro _
    cases pat with
    | nil => exact absurd rfl hpat
    | cons c cs =>
      have hsw : pyStartsWith (c :: cs) (c :: cs) = true := by
        simpa using pyStartsWith_append_self (c :: cs) []
      show pyReplace (c :: cs) rep (c :: cs) = rep
      unfold pyReplace
      rw [pyReplaceAux_zero_cons, hsw]
      have hlen : (c :: cs).length - 1 = cs.length := by simp
      simp [hlen, pyReplaceAux_skip]
  | cons x p' ih =>
    intro h
    have h0 : pyStartsWith pat (x :: (p' ++ pat)) = false := by
      have := h 0 (by simp)
      simpa using this
    show pyReplace pat rep (x :: (p' ++ pat)) = x :: (p' ++ rep)
    unfold pyReplace
    rw [pyReplaceAux_zero_cons, h0]
    have hrec := ih fun k hk => by
      have := h (k + 1) (by simpa using hk)
      simpa using this
    unfold pyReplace at hrec
    simp [hrec]

/-- C8 counterexample: for the entered URL
`http://x/configure/path/configure`, which ends with `/configure`, the
normalization rewrites *both* occurrences of `/configure`, not only the
trailing one — the rest of the URL is changed, and the interactive loop
stores the doubly rewritten transport URL. -/
theorem C8_counterexample :
    pyEndsWith "/configure".data "http://x/configure/path/configure".data
      = true ∧
    normalizeUrl "http://x/configure/path/configure"
      = "http://x/manifest.json/path/manifest.json" ∧
    normalizeUrl "http://x/configure/path/configure"
      ≠ "http://x/configure/path/manifest.json" ∧
    (load_custom_addons_loop initEnvOk ["http://x/configure/path/configure"] []).1
      = [{ manifest := some { id := some "org.example.foo", name := some "Foo",
                              flags := none },
           transportUrl := "http://x/manifest.json/path/manifest.json",
           flags := some ⟨false, false⟩ }] := by
  refine ⟨rfl, rfl, by decide, rfl⟩

/-- C8 (amended): when the cache file exists its parsed contents are
returned verbatim with no validation, normalization, or events; in the
interactive loop a URL ending in `/configure` is normalized by replacing
*every* occurrence of `/configure` with `/manifest.json` (so only when the
trailing suffix is the sole occurrence is the rest of the URL unchanged),
other URLs are left as they are, and the fetched descriptor is stored
under the normalized URL. -/
theorem C8_cache_verbatim_and_replace_all
    (cache : List Addon) (env : InitEnv) (inputs : List String) :
    load_custom_addons (some cache) env inputs = (cache, []) ∧
    (∀ url : String, pyEndsWith "/configure".data url.data = true →
      normalizeUrl url
        = ⟨pyReplace "/configure".data "/manifest.json".data url.data⟩) ∧
    (∀ url : String, pyEndsWith "/configure".data url.data = false →
      normalizeUrl url = url) ∧
    (∀ p : List Char,
      (∀ k, k < p.length →
        pyStartsWith "/configure".data ((p ++ "/configure".data).drop k) = false) →
      normalizeUrl ⟨p ++ "/configure".data⟩ = ⟨p ++ "/manifest.json".data⟩) ∧
    (∀ (line : String) (m : Manifest),
      (pyLower (pyStrip line.data) == "done".data) = false →
      env.fetchResult (normalizeUrl ⟨pyStrip line.data⟩) = .ok m →
      (load_custom_addons_loop env [line] []).1
        = [{ manifest := some m,
             transportUrl := normalizeUrl ⟨pyStrip line.data⟩,
             flags := some (m.flags.getD ⟨false, false⟩) }]) := by
  refine ⟨rfl, ?_, ?_, ?_, ?_⟩
  · intro url hurl
    unfold normalizeUrl
    rw [if_pos hurl]
  · intro url hurl
    unfold normalizeUrl
    rw [if_neg (by simp [hurl])]
  · intro p hp
    have hend : pyEndsWith "/configure".data (p ++ "/configure".data) = true := by
      unfold pyEndsWith
      rw [List.reverse_append]
      exact pyStartsWith_append_self _ _
    unfold normalizeUrl
    rw [if_pos hend]
    exact congrArg String.mk
      (pyReplace_single_tail "/configure".data "/manifest.json".data
        (by decide) p hp)
  · intro line m hdone hfetch
    unfold load_custom_addons_loop
    simp only [hdone]
    unfold fetch_manifest
    rw [hfetch]
    rfl

/-- C8 witness: the cache-exists branch returns the file verbatim, and a
single-occurrence URL entered in the loop is stored with only the trailing
suffix rewritten. -/
theorem C8_witness :
    load_custom_addons (some [fooAddon]) initEnvOk ["http://x/configure"]
      = ([fooAddon], []) ∧
    (load_custom_addons_loop initEnvOk ["http://x/configure"] []).1
      = [{ manifest := some { id := some "org.example.foo", name := some "Foo",
                              flags := none },
           transportUrl := normalizeUrl "http://x/configure",
           flags := some ⟨false, false⟩ }] := by
  have h := C8_cache_verbatim_and_replace_all [fooAddon] initEnvOk
    ["http://x/configure"]
  refine ⟨h.1, ?_⟩
  have h5 := h.2.2.2.2 "http://x/configure"
    { id := some "org.example.foo", name := some "Foo", flags := none }
    (by decide) rfl
  exact h5

end StremioReaddon
